import Mathlib

/-!
Shallow embedding of the cliexpect expectation engine (Go package `cliexpect`),
translated from the repository source: the matcher factories (`matcher` files),
the background reader, the `read`/`ackReads`/`waitForData` event plumbing, the
`Retrieve` retry loop, `processResults`, and the two-phase `Expect` built on
`Retrieve`.

Modelling conventions:
* Go strings are modelled as `List Char`; Go slicing `s[a:b]` (which panics when
  an index is out of range) is `goSlice`, returning `none` on a bounds panic.
* Go `error` values are `Option GoError`: `none` is Go `nil`; `GoError.eof` is
  `io.EOF`; `GoError.readTimeout` is the `"Read timed out"` error created by
  `waitForData`; `GoError.noMatches` is the package variable `ErrNoMatches`;
  `GoError.other` stands for any transport error.
* `time.Duration` values are `Int` (Go's `int64` nanosecond count; no overflow
  is relevant at the magnitudes the claims discuss).
* The concurrent environment (reader goroutine + channel) is an oracle: each
  call to the engine's `read` is given a `ReadEnv` describing what `ackReads`
  drains, the buffer snapshot, and what (if anything) arrives during a blocking
  wait.  `waitForData`'s `select` semantics are encoded in `read`: an arrival
  strictly later than the passed budget is an expiry.
* The regexp engine (`regexp.MustCompile` + `FindStringSubmatchIndex`) is an
  abstract pure parameter `engine : List Char → Matcher`; matchers themselves are
  `List Char → List Int` exactly as the Go `Matcher` type, where `[]` models a
  nil result and a negative span entry models an unmatched capture group.
-/

namespace Cliexpect

/-- Go `error` values that appear in the engine, up to interface equality. -/
inductive GoError where
  | eof
  | noMatches
  | readTimeout
  | other (msg : String)
deriving DecidableEq, Repr

/-- `type Matcher func(string) []int` (matcher.go): a function from the text
snapshot to a `FindStringSubmatchIndex`-shaped span list; `[]` models nil. -/
def Matcher : Type := List Char → List Int

/-- Go string slicing `data[a:b]`: `some` of the sub-list when
`0 ≤ a ≤ b ≤ len(data)`, `none` for the runtime bounds panic otherwise. -/
def goSlice (data : List Char) (a b : Int) : Option (List Char) :=
  if 0 ≤ a ∧ a ≤ b ∧ b ≤ (data.length : Int) then
    some ((data.drop a.toNat).take (b - a).toNat)
  else
    none

/-- `processResults` (expect engine): slice the snapshot at every span pair of
the match descriptor.  `none` models the Go runtime panic that occurs when a
span index is out of range (in particular the `-1` offsets of an unmatched
group) or when the descriptor has odd length. -/
def processResults : List Int → List Char → Option (List (List Char))
  | [], _ => some []
  | a :: b :: rest, data =>
    match goSlice data a b, processResults rest data with
    | some s, some tail => some (s :: tail)
    | _, _ => none
  | _ :: [], _ => none

/-- The post-loop error normalization of `Retrieve`:
`if err == nil || err == io.EOF ⟨then⟩ err = ErrNoMatches`. -/
def normalizeErr (err : Option GoError) : Option GoError :=
  if err = none ∨ err = some .eof then some .noMatches else err

/-- The oracle for one call to the engine's `read`: what `ackReads` drains
(count and the last drained error value), the buffer snapshot at that point,
what arrives if the call blocks on the channel (`none` = permanent silence),
and the buffer snapshot observed if the wait instead expires. -/
structure ReadEnv where
  acked : Nat
  ackErr : Option GoError
  ackBuf : List Char
  waitArrival : Option (Int × Option GoError × List Char)
  expireBuf : List Char
deriving DecidableEq, Repr

/-- The triple returned by the engine's `read`: buffer snapshot, duration
actually waited, and the observed error. -/
structure ReadResult where
  data : List Char
  dur : Int
  err : Option GoError
deriving DecidableEq, Repr

/-- `Shell.read(timeout)` (expect engine): drain pending notifications, snapshot
the buffer, and block on the channel — for at most `timeout` — only when
`timeout > 0`, no error was drained, and the snapshot is empty or zero reads
were drained.  `waitForData`'s `select` is encoded here: an arrival no later
than the budget is delivered with its actual duration; otherwise the wait
expires after exactly `timeout` with the distinct "Read timed out" error. -/
def read (timeout : Int) (env : ReadEnv) : ReadResult :=
  if 0 < timeout ∧ env.ackErr = none ∧ (env.ackBuf = [] ∨ env.acked = 0) then
    match env.waitArrival with
    | some (d, e, buf) =>
      if d ≤ timeout then ⟨buf, d, e⟩
      else ⟨env.expireBuf, timeout, some .readTimeout⟩
    | none => ⟨env.expireBuf, timeout, some .readTimeout⟩
  else
    ⟨env.ackBuf, 0, env.ackErr⟩

/-- Result of one engine call.  `outOfTrace` means the retry loop is still
running when the supplied oracle trace ends; `panicked` models a Go runtime
panic; `returned` carries the three return values plus the shared buffer's
contents at the moment the call returns. -/
inductive Outcome where
  | outOfTrace
  | panicked
  | returned (full : List Char) (groups : List (List Char))
      (err : Option GoError) (buf : List Char)
deriving DecidableEq, Repr

/-- The post-loop tail of `Retrieve`: on fewer than 6 span entries
(full match + body + prompt) normalize the error and return empty results with
the buffer untouched (it still equals the snapshot `data`, which was taken
under the lock); on a real match reset the buffer, re-seed it with
`data[result[1]:]` when the whole match ended before the snapshot's end, and
slice the snapshot into the result groups. -/
def finishRetrieve (result : List Int) (data : List Char) (err : Option GoError) :
    Outcome :=
  if result.length < 6 then
    .returned [] [] (normalizeErr err) data
  else
    match (if result.getD 1 0 < (data.length : Int) then
            goSlice data (result.getD 1 0) (data.length : Int)
          else some []),
        processResults result data with
    | some buf, some results =>
      .returned (results.getD 0 []) (results.drop 1) err buf
    | _, _ => .panicked

/-- The retry loop of `Retrieve` (the expectation engine), with the already
performed first `read(0)` passed in as `r` and `timeSpent` as the cumulative
blocking time so far.  Each continuation consumes the next `ReadEnv` from the
oracle trace and passes the remaining budget `T - timeSpent` to `read`.
Besides the outcome it returns the log of `(budget passed, duration waited)`
pairs for every subsequent `read` call, so that the cumulative-budget claims
can be stated. -/
def retrieveLoop (m : Matcher) (T : Int) :
    List ReadEnv → ReadResult → Int → Outcome × List (Int × Int)
  | [], r, _ =>
    if r.err ≠ none ∨ 0 < (m r.data).length then
      (finishRetrieve (m r.data) r.data r.err, [])
    else
      (.outOfTrace, [])
  | env :: rest, r, timeSpent =>
    if r.err ≠ none ∨ 0 < (m r.data).length then
      (finishRetrieve (m r.data) r.data r.err, [])
    else
      let ts := timeSpent + r.dur
      let budget := T - ts
      let next := read budget env
      let out := retrieveLoop m T rest next ts
      (out.1, (budget, next.dur) :: out.2)

/-- `Shell.Retrieve()` (part of the expect engine): start with a non-blocking
`read(0)` against `env0`, then run the retry loop over the oracle trace. -/
def Retrieve (m : Matcher) (T : Int) (env0 : ReadEnv) (envs : List ReadEnv) :
    Outcome × List (Int × Int) :=
  retrieveLoop m T envs (read 0 env0) 0

/-- The body of `Shell.Expect(m)` applied to `Retrieve`'s results: fail fast
when `Retrieve` produced fewer than 2 groups, otherwise evaluate the user
matcher against group 0 (the retrieved body text) only, and on success splice
the prompt-side groups after the user pattern's groups. -/
def ExpectFrom (m : Matcher) (full : List Char) (groups : List (List Char))
    (err : Option GoError) (buf : List Char) : Outcome :=
  if groups.length < 2 then
    .returned [] [] err buf
  else if (m (groups.getD 0 [])).length < 2 then
    .returned [] [] (normalizeErr err) buf
  else
    match processResults (m (groups.getD 0 [])) (groups.getD 0 []) with
    | some results => .returned full (results ++ groups.drop 1) err buf
    | none => .panicked

/-- `Shell.Expect(m)`: perform `Retrieve` first, then the second phase. -/
def Expect (m retr : Matcher) (T : Int) (env0 : ReadEnv) (envs : List ReadEnv) :
    Outcome :=
  match (Retrieve retr T env0 envs).1 with
  | .outOfTrace => .outOfTrace
  | .panicked => .panicked
  | .returned full groups err buf => ExpectFrom m full groups err buf

/-- `Shell.reader()` (the background reader goroutine), driven by a trace of
transport read results: each element is the chunk of bytes a blocking
`out.Read` reported (`buff[:n]`) together with its error.  Returns the
concatenation of all bytes appended to the shared buffer and the list of
notifications posted to the channel, in order. -/
def reader : List (List Char × Option GoError) →
    List Char × List (Option GoError)
  | [] => ([], [])
  | (chunk, none) :: rest =>
    let out := reader rest
    (chunk ++ out.1, none :: out.2)
  | (chunk, some e) :: _ => (chunk, [some e])

/-- The prefix of a transport trace the background reader actually processes:
everything up to and including the first erroring read attempt. -/
def processedReads : List (List Char × Option GoError) →
    List (List Char × Option GoError)
  | [] => []
  | (chunk, none) :: rest => (chunk, none) :: processedReads rest
  | (chunk, some e) :: _ => [(chunk, some e)]

/-- `RegexMatcher` (part_003 matcher file): compile `matchFmt + regex` where
`matchFmt = "(?ms)"`; the compiled regex engine is the opaque `engine`. -/
def RegexMatcher (engine : List Char → Matcher) (regex : List Char) : Matcher :=
  engine ("(?ms)".toList ++ regex)

/-- `StrMatcher`: quote the literal with `\Q...\E` and defer to `RegexMatcher`. -/
def StrMatcher (engine : List Char → Matcher) (str : List Char) : Matcher :=
  RegexMatcher engine ("\\Q".toList ++ str ++ "\\E".toList)

/-- The `retrieveRegex` format `(.*?)(^%s$)` applied to a prompt regex. -/
def retrievePattern (re : List Char) : List Char :=
  "(.*?)(^".toList ++ re ++ "$)".toList

/-- The prompt-dependent part of the session state: the installed retrieve
matcher (`ShellParam.retrieve`). -/
structure ShellParamSt where
  retrieve : Matcher

/-- `Shell.SetPromptRegex(re)`: build a fresh retrieve matcher from the prompt
regex at the moment of the call and install it. -/
def SetPromptRegex (engine : List Char → Matcher) (_p : ShellParamSt)
    (re : List Char) : ShellParamSt :=
  { retrieve := RegexMatcher engine (retrievePattern re) }

/-- `Shell.SetPrompt(prompt)`: quote the literal and defer to `SetPromptRegex`. -/
def SetPrompt (engine : List Char → Matcher) (p : ShellParamSt)
    (prompt : List Char) : ShellParamSt :=
  SetPromptRegex engine p ("\\Q".toList ++ prompt ++ "\\E".toList)

/-- The combined pattern `(?msU)(%s)(^%s$)` of the session-method variant of
`RegexMatcher` (matcher.go), which reads the session's prompt at construction
time. -/
def combineMatchFmt (regex prompt : List Char) : List Char :=
  "(?msU)(".toList ++ regex ++ ")(^".toList ++ prompt ++ "$)".toList

/-- The prompt field of the session (`ShellParam.Prompt`) for the
session-method matcher variant. -/
structure ShellPromptSt where
  Prompt : List Char
deriving DecidableEq, Repr

/-- `Shell.RegexMatcher(regex)` (matcher.go): compile
`fmt.Sprintf(matchFmt, regex, s.param.Prompt)` once, at construction; the
returned closure holds only the compiled regex. -/
def shellRegexMatcher (engine : List Char → Matcher) (st : ShellPromptSt)
    (regex : List Char) : Matcher :=
  engine (combineMatchFmt regex st.Prompt)

/-- Mutation of the session's prompt field (`s.param.Prompt = prompt`). -/
def setPromptField (_st : ShellPromptSt) (p : List Char) : ShellPromptSt :=
  { Prompt := p }

/-- Scenario for the construction-time-capture claim: build a matcher while the
prompt is `P`, then mutate the prompt to `P2`, and apply both the old matcher
and a freshly built one to `input`. -/
def buildThenMutate (engine : List Char → Matcher) (P P2 regex input : List Char) :
    List Int × List Int :=
  let st := ShellPromptSt.mk P
  let m := shellRegexMatcher engine st regex
  let st2 := setPromptField st P2
  (m input, shellRegexMatcher engine st2 regex input)

/-- Scenario for the installed retrieve matcher: install via `SetPromptRegex re`,
keep a reference to the installed matcher, mutate via `SetPromptRegex re2`, and
apply the old reference and the newly installed matcher to `input`. -/
def installThenMutate (engine : List Char → Matcher) (p : ShellParamSt)
    (re re2 input : List Char) : List Int × List Int :=
  let st1 := SetPromptRegex engine p re
  let m := st1.retrieve
  let st2 := SetPromptRegex engine st1 re2
  (m input, st2.retrieve input)

/-- Bounds check for a `FindStringSubmatchIndex`-shaped span list over a text
of length `n`: every pair must satisfy `0 ≤ a ≤ b ≤ n`. -/
def spansOk : List Int → Nat → Bool
  | [], _ => true
  | a :: b :: rest, n =>
    decide (0 ≤ a) && decide (a ≤ b) && decide (b ≤ (n : Int)) && spansOk rest n
  | _ :: [], _ => false

/-- The expected group list for a span list: the slice of the text at each
span pair, in descriptor order (index 0 = whole match, then the capture groups
in pattern-declaration order). -/
def specSlices : List Int → List Char → List (List Char)
  | a :: b :: rest, data =>
    ((data.drop a.toNat).take (b - a).toNat) :: specSlices rest data
  | _, _ => []

/-- Sum of the durations of the first `i` logged read calls. -/
def durBefore (log : List (Int × Int)) (i : Nat) : Int :=
  ((log.take i).map (fun p => p.2)).sum

/-! ### Helper lemmas -/

lemma read_zero (env : ReadEnv) : read 0 env = ⟨env.ackBuf, 0, env.ackErr⟩ := by
  simp [read]

lemma goSlice_full_suffix (data : List Char) (b : Int) (h0 : 0 ≤ b)
    (h1 : b ≤ (data.length : Int)) :
    goSlice data b (data.length : Int) = some (data.drop b.toNat) := by
  unfold goSlice
  rw [if_pos ⟨h0, h1, le_refl _⟩]
  congr 1
  apply List.take_of_length_le
  rw [List.length_drop]
  omega

lemma finishRetrieve_nomatch (result : List Int) (data : List Char)
    (err : Option GoError) (h : result.length < 6) :
    finishRetrieve result data err = .returned [] [] (normalizeErr err) data := by
  unfold finishRetrieve
  rw [if_pos h]

lemma finishRetrieve_match (a k : Int) (rest : List Int) (data : List Char)
    (err : Option GoError) (results : List (List Char))
    (hlen : 6 ≤ (a :: k :: rest).length) (hk0 : 0 ≤ k)
    (hklen : k ≤ (data.length : Int))
    (hpr : processResults (a :: k :: rest) data = some results) :
    finishRetrieve (a :: k :: rest) data err =
      .returned (results.getD 0 []) (results.drop 1) err (data.drop k.toNat) := by
  unfold finishRetrieve
  rw [if_neg (by omega)]
  have hb : (a :: k :: rest).getD 1 0 = k := rfl
  rw [hb, hpr]
  by_cases hlt : k < (data.length : Int)
  · rw [if_pos hlt, goSlice_full_suffix data k hk0 hklen]
  · have hdrop : data.drop k.toNat = [] := by
      apply List.drop_eq_nil_of_le
      omega
    rw [if_neg hlt, hdrop]

lemma retrieveLoop_exit (m : Matcher) (T : Int) (envs : List ReadEnv)
    (r : ReadResult) (ts : Int) (h : r.err ≠ none ∨ 0 < (m r.data).length) :
    retrieveLoop m T envs r ts = (finishRetrieve (m r.data) r.data r.err, []) := by
  cases envs <;> · unfold retrieveLoop; rw [if_pos h]

lemma retrieveLoop_nomatch_exit (m : Matcher) (T : Int) (envs : List ReadEnv)
    (r : ReadResult) (ts : Int) (h : r.err ≠ none ∨ 0 < (m r.data).length)
    (hlen : (m r.data).length < 6) :
    (retrieveLoop m T envs r ts).1 =
      .returned [] [] (normalizeErr r.err) r.data := by
  rw [retrieveLoop_exit m T envs r ts h]
  exact finishRetrieve_nomatch _ _ _ hlen

lemma retrieveLoop_match_exit (m : Matcher) (T : Int) (envs : List ReadEnv)
    (r : ReadResult) (ts : Int) (a k : Int) (rest : List Int)
    (results : List (List Char)) (hm : m r.data = a :: k :: rest)
    (hlen : 6 ≤ (m r.data).length) (hk0 : 0 ≤ k)
    (hklen : k ≤ (r.data.length : Int))
    (hpr : processResults (m r.data) r.data = some results) :
    (retrieveLoop m T envs r ts).1 =
      .returned (results.getD 0 []) (results.drop 1) r.err
        (r.data.drop k.toNat) := by
  have hpos : r.err ≠ none ∨ 0 < (m r.data).length := Or.inr (by omega)
  rw [retrieveLoop_exit m T envs r ts hpos]
  rw [hm] at hlen hpr ⊢
  exact finishRetrieve_match a k rest r.data r.err results hlen hk0 hklen hpr

lemma retrieveLoop_budget_aux (m : Matcher) (T : Int) :
    ∀ (envs : List ReadEnv) (r : ReadResult) (ts : Int) (i : Nat),
      i < (retrieveLoop m T envs r ts).2.length →
      ((retrieveLoop m T envs r ts).2.getD i (0, 0)).1 =
        T - (ts + r.dur) - durBefore (retrieveLoop m T envs r ts).2 i := by
  intro envs
  induction envs with
  | nil =>
    intro r ts i hi
    unfold retrieveLoop at hi ⊢
    by_cases h : r.err ≠ none ∨ 0 < (m r.data).length <;>
      simp [h] at hi
  | cons env rest ih =>
    intro r ts i hi
    by_cases h : r.err ≠ none ∨ 0 < (m r.data).length
    · rw [retrieveLoop_exit m T (env :: rest) r ts h] at hi
      simp at hi
    · have heq : retrieveLoop m T (env :: rest) r ts =
          ((retrieveLoop m T rest (read (T - (ts + r.dur)) env) (ts + r.dur)).1,
            (T - (ts + r.dur), (read (T - (ts + r.dur)) env).dur) ::
              (retrieveLoop m T rest (read (T - (ts + r.dur)) env) (ts + r.dur)).2) := by
        conv_lhs => rw [retrieveLoop]
        rw [if_neg h]
      rw [heq] at hi ⊢
      cases i with
      | zero =>
        simp [durBefore]
      | succ j =>
        simp only [List.getD_cons_succ, List.length_cons] at hi ⊢
        have hj : j < (retrieveLoop m T rest (read (T - (ts + r.dur)) env)
            (ts + r.dur)).2.length := by omega
        rw [ih (read (T - (ts + r.dur)) env) (ts + r.dur) j hj]
        simp only [durBefore, List.take_succ_cons, List.map_cons, List.sum_cons]
        ring

/-! ### Concrete values used by the witnesses and counterexamples -/

/-- A matcher that never matches. -/
def mNilW : Matcher := fun _ => []

/-- A matcher that matches anything non-empty (differs from `mNilW` off `[]`). -/
def mBW1 : Matcher := fun s => if s = [] then [] else [0, 0]

/-- A read environment whose drain reports a transport error. -/
def envBoomW : ReadEnv := ⟨0, some (.other "boom"), [], none, []⟩

/-- The snapshot `"a\np\nx"`: body `"a\n"`, prompt `"p\n"`, leftover `"x"`. -/
def data2W : List Char := "a\np\nx".toList

/-- A retrieve matcher that matches `data2W` with full span `[0,4)`,
body `[0,2)` and prompt `[2,4)`. -/
def retr2W : Matcher := fun s => if s = data2W then [0, 4, 0, 2, 2, 4] else []

/-- The groups `processResults` produces for `retr2W` on `data2W`. -/
def resW2 : List (List Char) := ["a\np\n".toList, "a\n".toList, "p\n".toList]

/-- The snapshot `"test\npp"`: body `"test\n"`, prompt `"pp"`, no leftover. -/
def cDataW : List Char := "test\npp".toList

/-- A retrieve matcher matching all of `cDataW` (full, body, prompt spans). -/
def retrCW : Matcher := fun s => if s = cDataW then [0, 7, 0, 5, 5, 7] else []

/-- A read environment that already holds `cDataW` with no pending error. -/
def envCW : ReadEnv := ⟨1, none, cDataW, none, []⟩

/-- A read environment that already holds the empty buffer and no error. -/
def env0N : ReadEnv := ⟨1, none, [], none, []⟩

/-- A silent read environment (blocking on it can only expire). -/
def envSilentW : ReadEnv := ⟨0, none, [], none, []⟩

/-- The body text `"ab\n"` used in the prompt-splicing scenario. -/
def bodyW3 : List Char := "ab\n".toList

/-- A user matcher matching all of `bodyW3` with no capture groups. -/
def mUW3 : Matcher := fun s => if s = bodyW3 then [0, 3] else []

/-- Retrieve-result groups for a prompt declaring exactly one sub-capture:
body, then the prompt's whole match `"p>"`, then its single sub-capture `"p"`. -/
def gW3 : List (List Char) := [bodyW3, "p>".toList, "p".toList]

/-! ### Claims -/

/-- Claim C1: `Expect` (hence `ExpectRegex`/`ExpectStr`) first performs
`Retrieve`; when `Retrieve` yields fewer than 2 groups the call returns
`Retrieve`'s error with empty results and the user matcher is never applied
(the outcome is identical for every user matcher); otherwise the user matcher
is evaluated only against group 0 of `Retrieve`'s result — two matchers that
agree on the retrieved body text produce identical outcomes, so the live
buffer is never consulted by the second phase. -/
theorem expect_retrieve_first :
    (∀ (mA mB retr : Matcher) (T : Int) (env0 : ReadEnv) (envs : List ReadEnv)
      (full : List Char) (groups : List (List Char)) (err : Option GoError)
      (buf : List Char),
      (Retrieve retr T env0 envs).1 = Outcome.returned full groups err buf →
      groups.length < 2 →
      Expect mA retr T env0 envs = Outcome.returned [] [] err buf ∧
      Expect mA retr T env0 envs = Expect mB retr T env0 envs)
    ∧ (∀ (mA mB : Matcher) (full : List Char) (groups : List (List Char))
      (err : Option GoError) (buf : List Char),
      2 ≤ groups.length →
      mA (groups.getD 0 []) = mB (groups.getD 0 []) →
      ExpectFrom mA full groups err buf = ExpectFrom mB full groups err buf) := by
  constructor
  · intro mA mB retr T env0 envs full groups err buf hret hlt
    have hA : Expect mA retr T env0 envs = Outcome.returned [] [] err buf := by
      unfold Expect
      rw [hret]
      show ExpectFrom mA full groups err buf = _
      unfold ExpectFrom
      rw [if_pos hlt]
    have hB : Expect mB retr T env0 envs = Outcome.returned [] [] err buf := by
      unfold Expect
      rw [hret]
      show ExpectFrom mB full groups err buf = _
      unfold ExpectFrom
      rw [if_pos hlt]
    exact ⟨hA, hA.trans hB.symm⟩
  · intro mA mB full groups err buf hge heq
    unfold ExpectFrom
    rw [heq]

/-- Witness for `expect_retrieve_first` at concrete inputs: a transport error
on the very first drain makes `Retrieve` fail with zero groups, and `Expect`
propagates the error identically for two different user matchers; and two
matchers agreeing on a retrieved body yield the same second-phase outcome. -/
theorem expect_retrieve_first_witness :
    (Expect mNilW mNilW 10 envBoomW [] =
        Outcome.returned [] [] (some (GoError.other "boom")) [] ∧
      Expect mNilW mNilW 10 envBoomW [] = Expect mBW1 mNilW 10 envBoomW []) ∧
    ExpectFrom mNilW [] [[], ['p']] none [] =
      ExpectFrom mBW1 [] [[], ['p']] none [] :=
  ⟨expect_retrieve_first.1 mNilW mBW1 mNilW 10 envBoomW [] [] []
      (some (GoError.other "boom")) [] (by decide) (by decide),
    expect_retrieve_first.2 mNilW mBW1 [] [[], ['p']] none []
      (by decide) (by decide)⟩

/-- Claim C2: when the engine's loop exits with a real match whose whole-match
end offset is `k` with `0 ≤ k ≤ len(T)` (where `T` is the accumulated
snapshot), the call resets the shared buffer and re-seeds it with exactly
`T[k:]` (empty when `k = len(T)`), and the next call's initial non-blocking
`read(0)` observes exactly that suffix as already-present data. -/
theorem leftover_retention :
    ∀ (m : Matcher) (T : Int) (envs : List ReadEnv) (r : ReadResult) (ts : Int)
      (a k : Int) (rest : List Int) (results : List (List Char)),
      m r.data = a :: k :: rest →
      6 ≤ (m r.data).length →
      0 ≤ k → k ≤ (r.data.length : Int) →
      processResults (m r.data) r.data = some results →
      (retrieveLoop m T envs r ts).1 =
        .returned (results.getD 0 []) (results.drop 1) r.err
          (r.data.drop k.toNat)
      ∧ (k = (r.data.length : Int) → r.data.drop k.toNat = [])
      ∧ (∀ (n : Nat) (w : Option (Int × Option GoError × List Char))
          (eb : List Char),
          (read 0 ⟨n, none, r.data.drop k.toNat, w, eb⟩).data =
            r.data.drop k.toNat) := by
  intro m T envs r ts a k rest results hm hlen hk0 hklen hpr
  refine ⟨retrieveLoop_match_exit m T envs r ts a k rest results hm hlen hk0
      hklen hpr, ?_, ?_⟩
  · intro hk
    apply List.drop_eq_nil_of_le
    omega
  · intro n w eb
    rw [read_zero]

/-- Witness for `leftover_retention`: the snapshot `"a\np\nx"` with a match
ending at offset 4 leaves exactly `"x"` in the buffer, and the next `read(0)`
observes `"x"`. -/
theorem leftover_retention_witness :
    (retrieveLoop retr2W 10 [] ⟨data2W, 0, none⟩ 0).1 =
      .returned (resW2.getD 0 []) (resW2.drop 1) none
        (data2W.drop (4 : Int).toNat) :=
  (leftover_retention retr2W 10 [] ⟨data2W, 0, none⟩ 0 0 4 [0, 2, 2, 4] resW2
    (by decide) (by decide) (by decide) (by decide) (by decide)).1

/-- Claim C4: when the engine's loop exits without a real match (fewer than the
6 span entries required for full match + body + prompt), a `nil` or plain
end-of-stream error is normalized to the `ErrNoMatches` domain error, while any
other observed error (transport failure, read timeout) is returned verbatim;
the same normalization governs the second phase of `Expect` when the user
pattern finds no match in the retrieved body. -/
theorem nomatch_error_normalized :
    ∀ (m : Matcher) (T : Int) (envs : List ReadEnv) (r : ReadResult) (ts : Int),
      (r.err ≠ none ∨ 0 < (m r.data).length) →
      (m r.data).length < 6 →
      ((r.err = none ∨ r.err = some .eof) →
        (retrieveLoop m T envs r ts).1 =
          .returned [] [] (some .noMatches) r.data)
      ∧ (r.err ≠ none → r.err ≠ some .eof →
        (retrieveLoop m T envs r ts).1 = .returned [] [] r.err r.data)
      ∧ (∀ (mm : Matcher) (full : List Char) (groups : List (List Char))
          (e : Option GoError) (b : List Char),
          2 ≤ groups.length → (mm (groups.getD 0 [])).length < 2 →
          ((e = none ∨ e = some .eof) →
            ExpectFrom mm full groups e b = .returned [] [] (some .noMatches) b)
          ∧ (e ≠ none → e ≠ some .eof →
            ExpectFrom mm full groups e b = .returned [] [] e b)) := by
  intro m T envs r ts hexit hlen
  have hbase := retrieveLoop_nomatch_exit m T envs r ts hexit hlen
  refine ⟨?_, ?_, ?_⟩
  · intro he
    rw [hbase]
    unfold normalizeErr
    rw [if_pos he]
  · intro h1 h2
    rw [hbase]
    unfold normalizeErr
    rw [if_neg (by tauto)]
  · intro mm full groups e b hge hm2
    have hE : ExpectFrom mm full groups e b =
        .returned [] [] (normalizeErr e) b := by
      unfold ExpectFrom
      rw [if_neg (by omega), if_pos hm2]
    constructor
    · intro he
      rw [hE]
      unfold normalizeErr
      rw [if_pos he]
    · intro h1 h2
      rw [hE]
      unfold normalizeErr
      rw [if_neg (by tauto)]

/-- Witness for `nomatch_error_normalized`: end-of-stream with no match becomes
`ErrNoMatches`; a transport error is returned verbatim; and the second phase of
`Expect` normalizes a `nil` error to `ErrNoMatches` when the user pattern
fails. -/
theorem nomatch_error_normalized_witness :
    (retrieveLoop mNilW 10 [] ⟨[], 0, some GoError.eof⟩ 0).1 =
      .returned [] [] (some .noMatches) []
    ∧ (retrieveLoop mNilW 10 [] ⟨[], 0, some (GoError.other "boom")⟩ 0).1 =
      .returned [] [] (some (GoError.other "boom")) []
    ∧ ExpectFrom mNilW [] [[], ['p']] none [] =
      .returned [] [] (some .noMatches) [] :=
  ⟨(nomatch_error_normalized mNilW 10 [] ⟨[], 0, some GoError.eof⟩ 0
      (by decide) (by decide)).1 (by decide),
    (nomatch_error_normalized mNilW 10 [] ⟨[], 0, some (GoError.other "boom")⟩ 0
      (by decide) (by decide)).2.1 (by decide) (by decide),
    ((nomatch_error_normalized mNilW 10 [] ⟨[], 0, some GoError.eof⟩ 0
      (by decide) (by decide)).2.2 mNilW [] [[], ['p']] none []
      (by decide) (by decide)).1 (by decide)⟩

/-- Claim C5: when the snapshot taken in an iteration already contains a full
match, the match is honored even though the same iteration's drained
notifications reported an error: the loop's exit condition prefers the match
branch, the matched groups are returned, and the observed error is reported
alongside the successful result rather than replacing it. -/
theorem match_wins_over_error :
    ∀ (m : Matcher) (T : Int) (envs : List ReadEnv) (r : ReadResult) (ts : Int)
      (e : GoError) (a k : Int) (rest : List Int) (results : List (List Char)),
      r.err = some e →
      m r.data = a :: k :: rest →
      6 ≤ (m r.data).length →
      0 ≤ k → k ≤ (r.data.length : Int) →
      processResults (m r.data) r.data = some results →
      (retrieveLoop m T envs r ts).1 =
        .returned (results.getD 0 []) (results.drop 1) (some e)
          (r.data.drop k.toNat) := by
  intro m T envs r ts e a k rest results herr hm hlen hk0 hklen hpr
  rw [← herr]
  exact retrieveLoop_match_exit m T envs r ts a k rest results hm hlen hk0
    hklen hpr

/-- Witness for `match_wins_over_error`: a snapshot containing a full match
together with an observed end-of-stream returns the groups with the
end-of-stream error piggy-backed on the successful result. -/
theorem match_wins_over_error_witness :
    (retrieveLoop retr2W 10 [] ⟨data2W, 0, some GoError.eof⟩ 0).1 =
      .returned (resW2.getD 0 []) (resW2.drop 1) (some GoError.eof)
        (data2W.drop (4 : Int).toNat) :=
  match_wins_over_error retr2W 10 [] ⟨data2W, 0, some GoError.eof⟩ 0
    GoError.eof 0 4 [0, 2, 2, 4] resW2 (by decide) (by decide) (by decide)
    (by decide) (by decide) (by decide)

/-- Claim C6: (1) the budget passed to the `i`-th blocking read of one
`Retrieve`/`Expect` call equals the configured timeout minus the durations
actually spent blocking in all earlier iterations of the same call — the
accumulator is carried across iterations and never reset; (2) a wait that
expires surfaces the distinct read-timeout error, which the loop then returns
verbatim (never replaced by `ErrNoMatches`); (3) the duration waited by a
single `read` never exceeds the budget passed to it; (4) the read-timeout
error is distinct from end-of-stream and from `ErrNoMatches`. -/
theorem cumulative_timeout_budget :
    (∀ (m : Matcher) (T : Int) (env0 : ReadEnv) (envs : List ReadEnv) (i : Nat),
      i < (Retrieve m T env0 envs).2.length →
      ((Retrieve m T env0 envs).2.getD i (0, 0)).1 =
        T - durBefore (Retrieve m T env0 envs).2 i)
    ∧ (∀ (m : Matcher) (T : Int) (envs : List ReadEnv) (data : List Char)
      (dur ts : Int),
      (m data).length < 6 →
      (retrieveLoop m T envs ⟨data, dur, some .readTimeout⟩ ts).1 =
        .returned [] [] (some .readTimeout) data)
    ∧ (∀ (t : Int) (env : ReadEnv),
      (∀ (d : Int) (e : Option GoError) (b : List Char),
        env.waitArrival = some (d, e, b) → 0 ≤ d) →
      (read t env).dur ≤ max t 0)
    ∧ (GoError.readTimeout ≠ GoError.eof ∧
      GoError.readTimeout ≠ GoError.noMatches) := by
  refine ⟨?_, ?_, ?_, by decide⟩
  · intro m T env0 envs i hi
    unfold Retrieve at hi ⊢
    have h := retrieveLoop_budget_aux m T envs (read 0 env0) 0 i hi
    rw [h, read_zero]
    simp
  · intro m T envs data dur ts hlen
    have h := retrieveLoop_nomatch_exit m T envs ⟨data, dur, some .readTimeout⟩
      ts (Or.inl (by simp)) hlen
    rw [h]
    unfold normalizeErr
    rw [if_neg (by simp)]
  · intro t env harr
    unfold read
    by_cases hc : 0 < t ∧ env.ackErr = none ∧ (env.ackBuf = [] ∨ env.acked = 0)
    · rw [if_pos hc]
      cases hw : env.waitArrival with
      | none => exact le_max_left t 0
      | some trip =>
        obtain ⟨d, e, b⟩ := trip
        dsimp only
        by_cases hd : d ≤ t
        · rw [if_pos hd]
          exact le_trans hd (le_max_left t 0)
        · rw [if_neg hd]
          exact le_max_left t 0
    · rw [if_neg hc]
      exact le_max_right t 0

/-- Witness for `cumulative_timeout_budget`: a concrete two-read run logs a
first blocking budget equal to the full timeout; a timed-out read's error is
returned verbatim; and a silent environment waits exactly the passed budget. -/
theorem cumulative_timeout_budget_witness :
    ((Retrieve mNilW 10 env0N [envBoomW]).2.getD 0 (0, 0)).1 =
      10 - durBefore (Retrieve mNilW 10 env0N [envBoomW]).2 0
    ∧ (retrieveLoop mNilW 10 [] ⟨[], 0, some GoError.readTimeout⟩ 0).1 =
      .returned [] [] (some .readTimeout) []
    ∧ (read 5 envSilentW).dur ≤ max 5 0 :=
  ⟨cumulative_timeout_budget.1 mNilW 10 env0N [envBoomW] 0 (by decide),
    cumulative_timeout_budget.2.1 mNilW 10 [] [] 0 0 (by decide),
    cumulative_timeout_budget.2.2.1 5 envSilentW
      (fun d e b h => Option.noConfusion h)⟩

/-- Claim C7 counterexample: the claim asserts that slicing the snapshot at
every descriptor span is total and that an unmatched capture group (negative
span offsets, as produced by `FindStringSubmatchIndex` for a non-participating
group) yields an empty string.  In the code, `data[result[i]:result[i+1]]` with
a negative index is a Go runtime bounds panic: on the descriptor
`[0, 1, -1, -1]` over `"ab"` the construction fails (`none` models the panic)
instead of producing `["a", ""]`. -/
theorem processResults_negative_span_cex :
    processResults [0, 1, -1, -1] ("ab".toList) = none := by decide

/-- Claim C7 (amended): whenever every span pair of the match descriptor is
within bounds (`0 ≤ start ≤ end ≤ len`), building the output group list is
total: it yields exactly one slice per span pair, in descriptor order — index
0 the whole match, then each capture group in pattern-declaration order.  A
group marked unmatched (negative offsets) is not in-bounds and instead causes
a runtime bounds panic (see the counterexample). -/
theorem processResults_inbounds_total :
    ∀ (result : List Int) (data : List Char),
      spansOk result data.length = true →
      processResults result data = some (specSlices result data) ∧
      (specSlices result data).length = result.length / 2 := by
  suffices H : ∀ (n : Nat) (result : List Int), result.length ≤ n →
      ∀ data : List Char, spansOk result data.length = true →
      processResults result data = some (specSlices result data) ∧
      (specSlices result data).length = result.length / 2 by
    exact fun result data h => H result.length result le_rfl data h
  intro n
  induction n with
  | zero =>
    intro result hle data h
    match result with
    | [] => simp [processResults, specSlices]
    | _ :: _ => simp at hle
  | succ n ih =>
    intro result hle data h
    match result with
    | [] => simp [processResults, specSlices]
    | [a] => simp [spansOk] at h
    | a :: b :: rest =>
      have hrest : rest.length ≤ n := by
        simp only [List.length_cons] at hle
        omega
      simp only [spansOk, Bool.and_eq_true, decide_eq_true_eq] at h
      obtain ⟨⟨⟨h0, hab⟩, hbn⟩, hrok⟩ := h
      obtain ⟨ih1, ih2⟩ := ih rest hrest data hrok
      constructor
      · unfold processResults
        have hg : goSlice data a b =
            some ((data.drop a.toNat).take (b - a).toNat) := by
          unfold goSlice
          rw [if_pos ⟨h0, hab, hbn⟩]
        rw [hg, ih1]
        rfl
      · simp only [specSlices, List.length_cons, ih2]
        omega

/-- Witness for `processResults_inbounds_total`: the in-bounds descriptor
`[0, 2, 0, 1]` over `"ab"` yields exactly its two slices. -/
theorem processResults_inbounds_total_witness :
    processResults [0, 2, 0, 1] ("ab".toList) =
      some (specSlices [0, 2, 0, 1] ("ab".toList)) ∧
    (specSlices [0, 2, 0, 1] ("ab".toList)).length =
      ([0, 2, 0, 1] : List Int).length / 2 :=
  processResults_inbounds_total [0, 2, 0, 1] ("ab".toList) (by decide)

/-- Claim C8: driven by any transport trace, the background reader posts
exactly one notification per processed read attempt (zero-byte successful
reads included), appends exactly the reported bytes of each processed attempt
to the shared buffer (appending before the error is evaluated, so bytes
delivered together with an error are kept), and terminates at the first
non-nil error: all notifications except possibly the last carry no error, and
the part of the trace after the first error is never touched. -/
theorem reader_posts_once_and_terminates :
    ∀ trace : List (List Char × Option GoError),
      reader trace =
        (((processedReads trace).map Prod.fst).flatten,
          (processedReads trace).map Prod.snd)
      ∧ ((processedReads trace).dropLast.all fun p => p.2.isNone) = true
      ∧ reader trace = reader (processedReads trace)
      ∧ (reader trace).2.length = (processedReads trace).length := by
  intro trace
  induction trace with
  | nil => simp [reader, processedReads]
  | cons head rest ih =>
    obtain ⟨chunk, err⟩ := head
    cases err with
    | none =>
      obtain ⟨ih1, ih2, ih3, ih4⟩ := ih
      refine ⟨?_, ?_, ?_, ?_⟩
      · simp [reader, processedReads, ih1]
      · simp only [processedReads]
        cases hpr : processedReads rest with
        | nil => simp
        | cons q qs =>
          rw [List.dropLast_cons₂]
          simp only [List.all_cons, Option.isNone_none, Bool.true_and]
          rw [hpr] at ih2
          exact ih2
      · simp only [processedReads, reader]
        rw [ih3]
      · simp [reader, processedReads, ih4]
    | some e =>
      refine ⟨?_, ?_, ?_, ?_⟩
      · simp [reader, processedReads]
      · simp [processedReads]
      · simp [reader, processedReads]
      · simp [reader, processedReads]

/-- Claim C3 counterexample: the claim says a successful `Expect` returns the
user pattern's groups first, "followed by exactly N prompt groups" where N is
the number of sub-capture groups the prompt pattern declares.  Take a prompt
declaring exactly N = 1 sub-capture, so `Retrieve`'s groups are
`[body, promptWhole, promptSub]`, and a user matcher contributing a single
group (its whole match).  The claim predicts `1 + N = 2` returned groups, but
the code splices *everything after the body* — the prompt's whole match and
its sub-captures — and returns 3 groups. -/
theorem prompt_splice_count_cex :
    ExpectFrom mUW3 ("ab\np>".toList) gW3 none [] =
      .returned ("ab\np>".toList) [bodyW3, "p>".toList, "p".toList] none []
    ∧ ([bodyW3, "p>".toList, "p".toList] : List (List Char)).length ≠ 1 + 1 :=
  ⟨by decide, by decide⟩

/-- Claim C3 (amended): for a prompt pattern declaring N sub-captures, a
successful `Expect` returns the user pattern's whole match and capture groups
first, followed by exactly N + 1 prompt entries: the prompt's whole match and
then its N sub-captures, in pattern-declaration order — i.e. the entire
prompt-side remainder of `Retrieve`'s group list is spliced after the user
groups, order preserved. -/
theorem prompt_splice_structure :
    ∀ (m : Matcher) (full body : List Char) (promptRest : List (List Char))
      (err : Option GoError) (buf : List Char) (results : List (List Char)),
      promptRest ≠ [] →
      2 ≤ (m body).length →
      processResults (m body) body = some results →
      ExpectFrom m full (body :: promptRest) err buf =
        .returned full (results ++ promptRest) err buf := by
  intro m full body promptRest err buf results hne hm2 hpr
  unfold ExpectFrom
  have hlen : ¬((body :: promptRest).length < 2) := by
    cases promptRest with
    | nil => exact absurd rfl hne
    | cons q qs => simp
  rw [if_neg hlen]
  have hbody : (body :: promptRest).getD 0 [] = body := rfl
  rw [hbody, if_neg (by omega), hpr]
  rfl

/-- Witness for `prompt_splice_structure`: a user matcher with a single group
and a prompt with one sub-capture yield
`[userWhole, promptWhole, promptSub]`. -/
theorem prompt_splice_structure_witness :
    ExpectFrom mUW3 ("ab\np>".toList) (bodyW3 :: ["p>".toList, "p".toList])
      none [] =
      .returned ("ab\np>".toList) ([bodyW3] ++ ["p>".toList, "p".toList])
        none [] :=
  prompt_splice_structure mUW3 ("ab\np>".toList) bodyW3
    ["p>".toList, "p".toList] none [] [bodyW3] (by decide) (by decide)
    (by decide)

/-- Claim C9: a matcher's behavior is fully determined by the prompt pattern
value at the moment of construction.  The session-method `RegexMatcher`
(matcher.go) reads the session prompt exactly once, at construction: building
a matcher while the prompt is `P`, then mutating the prompt to `P2`, leaves
the previously built matcher computing with the pattern combined from `P`,
while only a matcher built after the mutation uses `P2`; two sessions with
equal prompts yield matchers with identical behavior.  Likewise the installed
retrieve matcher captures the prompt regex passed to the `SetPromptRegex` call
that created it: a later `SetPromptRegex` replaces the installed matcher but
does not change what the earlier matcher value computes. -/
theorem matcher_capture_at_construction :
    (∀ (engine : List Char → Matcher) (P P2 regex input : List Char),
      (buildThenMutate engine P P2 regex input).1 =
        engine (combineMatchFmt regex P) input
      ∧ (buildThenMutate engine P P2 regex input).2 =
        engine (combineMatchFmt regex P2) input)
    ∧ (∀ (engine : List Char → Matcher) (st st2 : ShellPromptSt)
      (regex input : List Char),
      st.Prompt = st2.Prompt →
      shellRegexMatcher engine st regex input =
        shellRegexMatcher engine st2 regex input)
    ∧ (∀ (engine : List Char → Matcher) (p : ShellParamSt)
      (re re2 input : List Char),
      (installThenMutate engine p re re2 input).1 =
        RegexMatcher engine (retrievePattern re) input
      ∧ (installThenMutate engine p re re2 input).2 =
        RegexMatcher engine (retrievePattern re2) input) := by
  refine ⟨?_, ?_, ?_⟩
  · intro engine P P2 regex input
    exact ⟨rfl, rfl⟩
  · intro engine st st2 regex input h
    unfold shellRegexMatcher
    rw [h]
  · intro engine p re re2 input
    exact ⟨rfl, rfl⟩

/-- Witness for `matcher_capture_at_construction`: two session states with the
same prompt yield identical matcher behavior on a concrete input (the engine
here returns the length of the compiled pattern, so the value depends on the
captured prompt only). -/
theorem matcher_capture_at_construction_witness :
    shellRegexMatcher (fun pat => fun _ => [(pat.length : Int)])
      ⟨"p1".toList⟩ ("x".toList) ("in".toList) =
      shellRegexMatcher (fun pat => fun _ => [(pat.length : Int)])
        ⟨"p1".toList⟩ ("x".toList) ("in".toList) :=
  matcher_capture_at_construction.2.1 (fun pat => fun _ => [(pat.length : Int)])
    ⟨"p1".toList⟩ ⟨"p1".toList⟩ ("x".toList) ("in".toList) rfl

/-- Claim C10 counterexample: the claim says every `Expect`/`Retrieve` call
that returns a non-nil error with empty results leaves the shared buffer
unchanged.  But when `Expect`'s inner `Retrieve` succeeds and only the user
pattern then fails, the call returns `("", nil, ErrNoMatches)` while the
retrieved block has already been consumed: the buffer, which held `"test\npp"`
before the call, is empty afterwards. -/
theorem expect_error_buffer_mutated_cex :
    Expect mNilW retrCW 10 envCW [] =
      .returned [] [] (some .noMatches) []
    ∧ envCW.ackBuf ≠ [] :=
  ⟨by decide, by decide⟩

/-- Claim C10 (amended): when the expectation engine (`Retrieve`) itself exits
its loop without a real match and returns a non-nil error with empty results,
the shared buffer is neither reset nor re-seeded: it still holds exactly the
accumulated snapshot, so all accumulated-but-unmatched bytes remain available
to the next call.  The same holds for `Expect` when its inner `Retrieve`
failed.  (When `Expect`'s inner `Retrieve` succeeds but the user pattern
fails, the retrieved block *is* consumed — see the counterexample.) -/
theorem error_path_buffer_unchanged :
    ∀ (m : Matcher) (T : Int) (envs : List ReadEnv) (r : ReadResult) (ts : Int),
      (r.err ≠ none ∨ 0 < (m r.data).length) →
      (m r.data).length < 6 →
      (retrieveLoop m T envs r ts).1 =
        .returned [] [] (normalizeErr r.err) r.data
      ∧ (∀ (mm : Matcher) (full : List Char) (groups : List (List Char))
          (e : Option GoError) (b : List Char),
          groups.length < 2 →
          ExpectFrom mm full groups e b = .returned [] [] e b) := by
  intro m T envs r ts hexit hlen
  constructor
  · exact retrieveLoop_nomatch_exit m T envs r ts hexit hlen
  · intro mm full groups e b hlt
    unfold ExpectFrom
    rw [if_pos hlt]

/-- Witness for `error_path_buffer_unchanged`: a transport error with the
snapshot `"ab\n"` accumulated but unmatched returns the error while the
buffer still holds `"ab\n"`. -/
theorem error_path_buffer_unchanged_witness :
    (retrieveLoop mNilW 10 [] ⟨bodyW3, 0, some (GoError.other "boom")⟩ 0).1 =
      .returned [] [] (normalizeErr (some (GoError.other "boom"))) bodyW3
    ∧ ExpectFrom mNilW [] [] (some (GoError.other "boom")) bodyW3 =
      .returned [] [] (some (GoError.other "boom")) bodyW3 :=
  ⟨(error_path_buffer_unchanged mNilW 10 []
      ⟨bodyW3, 0, some (GoError.other "boom")⟩ 0 (by decide) (by decide)).1,
    (error_path_buffer_unchanged mNilW 10 []
      ⟨bodyW3, 0, some (GoError.other "boom")⟩ 0 (by decide) (by decide)).2
      mNilW [] [] (some (GoError.other "boom")) bodyW3 (by decide)⟩

end Cliexpect
